import Mathlib

/-!
Shallow embedding of the interrupt-driven BLDC commutation/protection loop
(`bldc.c` of the hoverboard FOC firmware): the hall-sector lookup table
`hall2pos`, the ADC offset calibration state machine (`bldc_start_calibration`,
`calibration_func`), the per-tick control function `bldc_control`, and the
interrupt entry point `DMA1_Channel1_IRQHandler` with its overrun guard,
buzzer wave generator and battery filter call.

Machine integers are modelled as `Nat` / `Int` with explicit reductions
modulo `2^16`, `2^32`, `2^64` at the points where the C code performs
fixed-width arithmetic (the `uint16_t` step counters, the `uint32_t` offset
accumulators and buzzer timer, the `uint64_t` main tick counter, and the
`(int16_t)` narrowing casts on current computations).

The opaque Simulink-generated controller (`BLDC_controller_step`) is out of
scope per the specification; its per-tick outputs (`rtY_Left` / `rtY_Right`)
are supplied as an unconstrained oracle in the tick input. Configuration
constants that live in headers outside the sources (`CALIBRATION_SAMPLES`,
`I_DC_MAX * A2BIT_CONV`, `FOC_CTRL`, the PWM period) are parameters of a
configuration record.
-/

namespace Bldc

/-- Modulus of `uint16_t` arithmetic. -/
def U16 : Nat := 65536

/-- Modulus of `uint32_t` arithmetic. -/
def U32 : Nat := 4294967296

/-- Modulus of `uint64_t` arithmetic. -/
def U64 : Nat := 18446744073709551616

/-- Reinterpret a nonnegative residue as a signed 16-bit value, as the C cast
`(int16_t)` does on the low 16 bits (two-complement). -/
def toInt16i (x : Int) : Int :=
  let r := x % 65536
  if r < 32768 then r else r - 65536

/-- Subtraction of two values in `uint32_t` arithmetic: `(a - b) mod 2^32`. -/
def u32sub (a b : Nat) : Nat := (a + (U32 - b % U32)) % U32

/-- The C expression `(int16_t)(a - b)` where `a` is a `uint32_t` accumulator
and `b` an unsigned ADC sample: wraparound subtraction mod `2^32` followed by
the narrowing cast to `int16_t`. -/
def i16sub (a b : Nat) : Int := toInt16i ((u32sub a b : Nat) : Int)

/-- The C cast `(uint16_t)` applied to an `int` value: low 16 bits. -/
def u16ofInt (x : Int) : Nat := (x % 65536).toNat

/-- Modelled from the spec: the `CLAMP(x, lowBound, upperBound)` helper macro
(from `util.h`, which is not among the sources) saturates a value exactly to
the boundary of `[lowBound, upperBound]`, never wrapping: `MIN(MAX(x, lo), hi)`. -/
def clampInt (x lo hi : Int) : Int := min (max x lo) hi

/-- The `hall2pos[2][2][2]` lookup table from the source, mapping the three
(active-low, already negated) hall readings of one motor to a commutation
sector. Index order is `[hall_u][hall_v][hall_w]` with `true` standing for
the C index `1`. -/
def hall2pos (u v w : Bool) : Nat :=
  match u, v, w with
  | false, false, false => 6
  | false, false, true  => 2
  | false, true,  false => 4
  | false, true,  true  => 3
  | true,  false, false => 0
  | true,  false, true  => 1
  | true,  true,  false => 5
  | true,  true,  true  => 6

/-- Output record of the opaque controller step: the fields of `rtY_Left` /
`rtY_Right` that this loop consumes (fault code and the three duty values). -/
structure RtY where
  z_errCode : Nat
  DC_phaA : Int
  DC_phaB : Int
  DC_phaC : Int
deriving DecidableEq

/-- Input record `rtU_Left` / `rtU_Right` handed to the opaque controller
step, exactly the fields the source assigns. -/
structure RtU where
  b_motEna : Bool
  z_ctrlModReq : Nat
  r_inpTgt : Int
  b_hallA : Bool
  b_hallB : Bool
  b_hallC : Bool
  i_phaAB : Int
  i_phaBC : Int
  i_DCLink : Int
deriving DecidableEq

/-- The per-tick handler bound to the function pointer `timer_brushless`.
Only the three functions assigned in the source can be its value. -/
inductive Handler where
  | nullFunc
  | calibration
  | control
deriving DecidableEq

/-- Configuration constants that live in headers outside the given sources,
kept abstract: the calibration sample target `CALIBRATION_SAMPLES`, the
current ceiling `curDC_max = I_DC_MAX * A2BIT_CONV`, the enumeration value
`FOC_CTRL`, and the PWM period `pwm_res = 64000000 / 2 / PWM_FREQ` (2000 in
the shipped configuration).  `filt` is the battery low-pass filter
`filtLowPass32` from `util.c`, which is not among the sources and is treated
as an opaque update of the fixed-point filter state. -/
structure Cfg where
  calibrationSamples : Nat
  curDC_max : Int
  focCtrl : Nat
  pwm_res : Nat
  filt : Nat → Int → Int

/-- Everything the interrupt reads during one tick: raw hall pin levels
(`IDR & PIN` as a Bool, before the active-low negation), the DMA-refreshed
ADC sample batch, and the externally written shared variables (administrative
enable, requested targets, control-mode and control-type selectors, buzzer
commands).  `yL` / `yR` are the oracle outputs the opaque controller step
would produce on this tick. -/
structure TickInput where
  hallUL : Bool
  hallVL : Bool
  hallWL : Bool
  hallUR : Bool
  hallVR : Bool
  hallWR : Bool
  rlA : Nat
  rlB : Nat
  rrB : Nat
  rrC : Nat
  dcl : Nat
  dcr : Nat
  batt1 : Nat
  enable : Nat
  ctrlModReq : Nat
  pwml : Int
  pwmr : Int
  ctrlTypL : Nat
  ctrlTypR : Nat
  buzzerFreq : Nat
  buzzerPattern : Nat
  buzzerCount : Nat
  yL : RtY
  yR : RtY
deriving DecidableEq

/-- The mutable state of the loop: the six `uint32_t` offset accumulators,
the `uint64_t` tick counter, the two-slot sector history `pos[2][2]`, the
`uint16_t` step counters, the latched enable gate, the computed currents, the
controller I/O records, the two timer MOE bits and the six compare
registers, the handler binding, the overrun guard flag, and the buzzer and
battery-filter state. -/
structure State where
  offsetrlA : Nat
  offsetrlB : Nat
  offsetrrB : Nat
  offsetrrC : Nat
  offsetdcl : Nat
  offsetdcr : Nat
  mainCounter : Nat
  pos00 : Nat
  pos01 : Nat
  pos10 : Nat
  pos11 : Nat
  steps0 : Nat
  steps1 : Nat
  enableFin : Bool
  curL_phaA : Int
  curL_phaB : Int
  curL_DC : Int
  curR_phaB : Int
  curR_phaC : Int
  curR_DC : Int
  rtU_Left : RtU
  rtU_Right : RtU
  rtY_Left : RtY
  rtY_Right : RtY
  leftMOE : Bool
  rightMOE : Bool
  leftTimU : Nat
  leftTimV : Nat
  leftTimW : Nat
  rightTimU : Nat
  rightTimV : Nat
  rightTimW : Nat
  handler : Handler
  overrunFlag : Bool
  buzzerTimer : Nat
  buzzerPrev : Nat
  buzzerIdx : Nat
  buzzerPin : Bool
  batVoltageFixdt : Int
  batVoltage : Int
deriving DecidableEq

/-- Decoded left sector: `hall2pos[hall_ul][hall_vl][hall_wl]` where each
`hall_x = !(PORT->IDR & PIN)` (active-low read). -/
def posL (i : TickInput) : Nat := hall2pos (!i.hallUL) (!i.hallVL) (!i.hallWL)

/-- Decoded right sector, as `posL` for the right hall pins. -/
def posR (i : TickInput) : Nat := hall2pos (!i.hallUR) (!i.hallVR) (!i.hallWR)

/-- The function `bldc_start_calibration`: zero the tick counter and all six
offset accumulators, snapshot the currently decoded sector into both history
slots of both motors, and bind the per-tick handler to `calibration_func`. -/
def bldc_start_calibration (s : State) (i : TickInput) : State :=
  { s with
    mainCounter := 0
    offsetrlA := 0
    offsetrlB := 0
    offsetrrB := 0
    offsetrrC := 0
    offsetdcl := 0
    offsetdcr := 0
    pos00 := posL i
    pos01 := posL i
    pos10 := posR i
    pos11 := posR i
    handler := Handler.calibration }

/-- One accumulation pass of `calibration_func`: add the current raw ADC
samples to each `uint32_t` accumulator. -/
def accumulate (s : State) (i : TickInput) : State :=
  { s with
    offsetrlA := (s.offsetrlA + i.rlA) % U32
    offsetrlB := (s.offsetrlB + i.rlB) % U32
    offsetrrB := (s.offsetrrB + i.rrB) % U32
    offsetrrC := (s.offsetrrC + i.rrC) % U32
    offsetdcl := (s.offsetdcl + i.dcl) % U32
    offsetdcr := (s.offsetdcr + i.dcr) % U32 }

/-- The function `calibration_func`: restart via `bldc_start_calibration` if
either decoded sector moved away from its snapshot (note the source does not
return after a restart, so the accumulation logic below still runs on the
freshly reset state), then accumulate while `mainCounter < CALIBRATION_SAMPLES`;
on the tick where `mainCounter == CALIBRATION_SAMPLES` accumulate one final
time, divide every accumulator by the sample target, and bind the handler to
`bldc_control`. -/
def calibration_func (cfg : Cfg) (s : State) (i : TickInput) : State :=
  let current_posl := posL i
  let current_posr := posR i
  let s1 := if current_posl ≠ s.pos00 then bldc_start_calibration s i else s
  let s2 := if current_posr ≠ s1.pos10 then bldc_start_calibration s1 i else s1
  if s2.mainCounter < cfg.calibrationSamples then
    accumulate s2 i
  else if s2.mainCounter = cfg.calibrationSamples then
    let s3 := accumulate s2 i
    { s3 with
      offsetrlA := s3.offsetrlA / cfg.calibrationSamples
      offsetrlB := s3.offsetrlB / cfg.calibrationSamples
      offsetrrB := s3.offsetrrB / cfg.calibrationSamples
      offsetrrC := s3.offsetrrC / cfg.calibrationSamples
      offsetdcl := s3.offsetdcl / cfg.calibrationSamples
      offsetdcr := s3.offsetdcr / cfg.calibrationSamples
      handler := Handler.control }
  else s2

/-- The PWM margin selection of `bldc_control`: 110 when the configured
control type of the motor is `FOC_CTRL`, 0 otherwise. -/
def pwmMargin (cfg : Cfg) (t : Nat) : Int := if t = cfg.focCtrl then 110 else 0

/-- One timer compare register write of `bldc_control`:
`(uint16_t)CLAMP(duty + pwm_res / 2, pwm_margin, pwm_res - pwm_margin)`. -/
def dutyReg (cfg : Cfg) (m : Int) (duty : Int) : Nat :=
  u16ofInt (clampInt (duty + ((cfg.pwm_res / 2 : Nat) : Int)) m ((cfg.pwm_res : Int) - m))

/-- The combined enable computation
`enableFin = enable && !rtY_Left.z_errCode && !rtY_Right.z_errCode`:
administrative enable truthy and both fault codes of the previous controller
step equal to zero. -/
def enableFinV (s : State) (i : TickInput) : Bool :=
  decide (i.enable ≠ 0) && decide (s.rtY_Left.z_errCode = 0) &&
    decide (s.rtY_Right.z_errCode = 0)

/-- The function `bldc_control`: recompute the combined enable/fault gate,
compute offset-corrected currents, drive the per-motor MOE current-chopping
gate, select the PWM margin per control type, decode the hall sectors and
update the two-slot history and step counters, build the controller input
records, take the oracle controller outputs, and write the three clamped,
centered duty values per motor.  The `ABS` macro of the source is the
absolute value on the promoted `int` and `CLAMP` is `clampInt`. -/
def bldc_control (cfg : Cfg) (s : State) (i : TickInput) : State :=
  let enableFinN := enableFinV s i
  let curL_phaA_N := i16sub s.offsetrlA i.rlA
  let curL_phaB_N := i16sub s.offsetrlB i.rlB
  let curL_DC_N := i16sub s.offsetdcl i.dcl
  let leftMOE_N := if |curL_DC_N| > cfg.curDC_max ∨ i.enable = 0 then false else true
  let marginL : Int := pwmMargin cfg i.ctrlTypL
  let pl := posL i
  let steps0N := if pl ≠ s.pos00 then
      (if pl ≠ s.pos01 then (s.steps0 + 1) % U16 else s.steps0)
    else s.steps0
  let pos01N := if pl ≠ s.pos00 then s.pos00 else s.pos01
  let pos00N := if pl ≠ s.pos00 then pl else s.pos00
  let uLeft : RtU :=
    { b_motEna := enableFinN
      z_ctrlModReq := i.ctrlModReq
      r_inpTgt := i.pwml
      b_hallA := !i.hallUL
      b_hallB := !i.hallVL
      b_hallC := !i.hallWL
      i_phaAB := curL_phaA_N
      i_phaBC := curL_phaB_N
      i_DCLink := curL_DC_N }
  let yLeft := i.yL
  let ltU := dutyReg cfg marginL yLeft.DC_phaA
  let ltV := dutyReg cfg marginL yLeft.DC_phaB
  let ltW := dutyReg cfg marginL yLeft.DC_phaC
  let curR_phaB_N := i16sub s.offsetrrB i.rrB
  let curR_phaC_N := i16sub s.offsetrrC i.rrC
  let curR_DC_N := i16sub s.offsetdcr i.dcr
  let rightMOE_N := if |curR_DC_N| > cfg.curDC_max ∨ i.enable = 0 then false else true
  let marginR : Int := pwmMargin cfg i.ctrlTypR
  let pr := posR i
  let steps1N := if pr ≠ s.pos10 then
      (if pr ≠ s.pos11 then (s.steps1 + 1) % U16 else s.steps1)
    else s.steps1
  let pos11N := if pr ≠ s.pos10 then s.pos10 else s.pos11
  let pos10N := if pr ≠ s.pos10 then pr else s.pos10
  let uRight : RtU :=
    { b_motEna := enableFinN
      z_ctrlModReq := i.ctrlModReq
      r_inpTgt := i.pwmr
      b_hallA := !i.hallUR
      b_hallB := !i.hallVR
      b_hallC := !i.hallWR
      i_phaAB := curR_phaB_N
      i_phaBC := curR_phaC_N
      i_DCLink := curR_DC_N }
  let yRight := i.yR
  let rtUc := dutyReg cfg marginR yRight.DC_phaA
  let rtVc := dutyReg cfg marginR yRight.DC_phaB
  let rtWc := dutyReg cfg marginR yRight.DC_phaC
  { s with
    enableFin := enableFinN
    curL_phaA := curL_phaA_N
    curL_phaB := curL_phaB_N
    curL_DC := curL_DC_N
    curR_phaB := curR_phaB_N
    curR_phaC := curR_phaC_N
    curR_DC := curR_DC_N
    leftMOE := leftMOE_N
    rightMOE := rightMOE_N
    steps0 := steps0N
    pos00 := pos00N
    pos01 := pos01N
    steps1 := steps1N
    pos10 := pos10N
    pos11 := pos11N
    rtU_Left := uLeft
    rtU_Right := uRight
    rtY_Left := yLeft
    rtY_Right := yRight
    leftTimU := ltU
    leftTimV := ltV
    leftTimW := ltW
    rightTimU := rtUc
    rightTimV := rtVc
    rightTimW := rtWc }

/-- The tail of the interrupt handler after the guarded call: increment the
buzzer timer, run the square-wave buzzer logic, and at the 1 kHz sub-rate run
the battery low-pass filter and refresh `batVoltage = (int16_t)(fixdt >> 16)`
(arithmetic shift = floor division by `2^16`). -/
def buzzerBattery (cfg : Cfg) (s : State) (i : TickInput) : State :=
  let bt := (s.buzzerTimer + 1) % U32
  let active := i.buzzerFreq ≠ 0 ∧ (bt / 5000) % (i.buzzerPattern + 1) = 0
  let prevN := if active then (if s.buzzerPrev = 0 then 1 else s.buzzerPrev)
    else (if s.buzzerPrev ≠ 0 then 0 else s.buzzerPrev)
  let idxN := if active ∧ s.buzzerPrev = 0 then
      (let t := (s.buzzerIdx + 1) % 256
       if t > i.buzzerCount + 2 then 1 else t)
    else s.buzzerIdx
  let pinN := if active then
      (if bt % i.buzzerFreq = 0 ∧ (idxN ≤ i.buzzerCount ∨ i.buzzerCount = 0) then
        !s.buzzerPin
      else s.buzzerPin)
    else (if s.buzzerPrev ≠ 0 then false else s.buzzerPin)
  let fixN := if bt % 1000 = 0 then cfg.filt i.batt1 s.batVoltageFixdt else s.batVoltageFixdt
  let batN := if bt % 1000 = 0 then toInt16i (Int.fdiv fixN 65536) else s.batVoltage
  { s with
    buzzerTimer := bt
    buzzerPrev := prevN
    buzzerIdx := idxN
    buzzerPin := pinN
    batVoltageFixdt := fixN
    batVoltage := batN }

/-- Dispatch through the `timer_brushless` function pointer. -/
def dispatch (cfg : Cfg) (s : State) (i : TickInput) : State :=
  match s.handler with
  | Handler.nullFunc => s
  | Handler.calibration => calibration_func cfg s i
  | Handler.control => bldc_control cfg s i

/-- The interrupt handler `DMA1_Channel1_IRQHandler`: acknowledge the DMA
interrupt (hardware only), increment the `uint64_t` tick counter, return
immediately if the overrun guard flag is set, and otherwise run the bound
per-tick handler followed by `buzzerFunc` (initialized to `nullFunc` and
never rebound in the sources) and the buzzer/battery tail.  The guard flag
is set for the duration of the handler call and cleared right after it, so a
completed invocation leaves it as it found it. -/
def irqStep (cfg : Cfg) (s : State) (i : TickInput) : State :=
  let s0 := { s with mainCounter := (s.mainCounter + 1) % U64 }
  if s0.overrunFlag then s0
  else buzzerBattery cfg (dispatch cfg s0 i) i

/-- Iterate the interrupt handler for a number of ticks under a constant
tick input. -/
def runTicks (cfg : Cfg) (i : TickInput) (s : State) : Nat → State
  | 0 => s
  | k + 1 => irqStep cfg (runTicks cfg i s k) i

/-! ### Concrete fixtures for witnesses and counterexamples -/

/-- A concrete configuration: sample target 2, current ceiling 100, control
type 2 for FOC, the shipped PWM period 2000, identity battery filter. -/
def cfg0 : Cfg :=
  { calibrationSamples := 2
    curDC_max := 100
    focCtrl := 2
    pwm_res := 2000
    filt := fun _ x => x }

/-- A concrete zero controller output record. -/
def y0 : RtY := { z_errCode := 0, DC_phaA := 0, DC_phaB := 0, DC_phaC := 0 }

/-- A concrete zero controller input record. -/
def u0 : RtU :=
  { b_motEna := false
    z_ctrlModReq := 0
    r_inpTgt := 0
    b_hallA := false
    b_hallB := false
    b_hallC := false
    i_phaAB := 0
    i_phaBC := 0
    i_DCLink := 0 }

/-- A concrete tick input: all hall pins read high (decoded sector 6), all
ADC samples zero, administrative enable set, buzzer off. -/
def i0 : TickInput :=
  { hallUL := true, hallVL := true, hallWL := true
    hallUR := true, hallVR := true, hallWR := true
    rlA := 0, rlB := 0, rrB := 0, rrC := 0, dcl := 0, dcr := 0
    batt1 := 0
    enable := 1
    ctrlModReq := 0
    pwml := 0, pwmr := 0
    ctrlTypL := 2, ctrlTypR := 2
    buzzerFreq := 0, buzzerPattern := 0, buzzerCount := 0
    yL := y0, yR := y0 }

/-- A concrete loop state parameterized by tick counter, handler binding and
overrun flag; sector history matches the decode of `i0` (sector 6). -/
def baseState (c : Nat) (h : Handler) (flag : Bool) : State :=
  { offsetrlA := 0, offsetrlB := 0, offsetrrB := 0, offsetrrC := 0
    offsetdcl := 0, offsetdcr := 0
    mainCounter := c
    pos00 := 6, pos01 := 6, pos10 := 6, pos11 := 6
    steps0 := 0, steps1 := 0
    enableFin := false
    curL_phaA := 0, curL_phaB := 0, curL_DC := 0
    curR_phaB := 0, curR_phaC := 0, curR_DC := 0
    rtU_Left := u0, rtU_Right := u0
    rtY_Left := y0, rtY_Right := y0
    leftMOE := false, rightMOE := false
    leftTimU := 0, leftTimV := 0, leftTimW := 0
    rightTimU := 0, rightTimV := 0, rightTimW := 0
    handler := h
    overrunFlag := flag
    buzzerTimer := 0
    buzzerPrev := 0, buzzerIdx := 0, buzzerPin := false
    batVoltageFixdt := 0, batVoltage := 0 }

/-! ### C1: combined enable/fault gate feeds both motors -/

/-- C1: on every control tick the enable input `b_motEna` handed to each of
the two controller input records is true exactly when the administrative
enable is non-zero and the fault codes of both motors from the previous
control step are zero, and the two motors always receive the same value; in
particular a non-zero prior fault code on either motor forces enable = false
for both even when the administrative enable is set. -/
theorem c1_enable_fault_gate (cfg : Cfg) (s : State) (i : TickInput) :
    ((bldc_control cfg s i).rtU_Left.b_motEna = true ↔
      (i.enable ≠ 0 ∧ s.rtY_Left.z_errCode = 0 ∧ s.rtY_Right.z_errCode = 0)) ∧
    (bldc_control cfg s i).rtU_Right.b_motEna =
      (bldc_control cfg s i).rtU_Left.b_motEna := by
  refine ⟨?_, rfl⟩
  simp [bldc_control, enableFinV, and_assoc]

/-! ### C2: per-motor current protection gate on the MOE bit -/

/-- C2: on every control tick each main-output-enable bit is cleared exactly
when the absolute value of the offset-corrected DC-link current of that motor
strictly exceeds the configured ceiling or the administrative enable is zero,
and set otherwise; hence a magnitude exactly equal to the ceiling with
non-zero enable leaves the output enabled, and since the characterization
never mentions the fault codes, a non-zero fault code alone does not clear
the bit. -/
theorem c2_current_protection_gate (cfg : Cfg) (s : State) (i : TickInput) :
    ((bldc_control cfg s i).leftMOE = false ↔
      cfg.curDC_max < |i16sub s.offsetdcl i.dcl| ∨ i.enable = 0) ∧
    ((bldc_control cfg s i).leftMOE = true ↔
      |i16sub s.offsetdcl i.dcl| ≤ cfg.curDC_max ∧ i.enable ≠ 0) ∧
    ((bldc_control cfg s i).rightMOE = false ↔
      cfg.curDC_max < |i16sub s.offsetdcr i.dcr| ∨ i.enable = 0) ∧
    ((bldc_control cfg s i).rightMOE = true ↔
      |i16sub s.offsetdcr i.dcr| ≤ cfg.curDC_max ∧ i.enable ≠ 0) := by
  have l1 : (bldc_control cfg s i).leftMOE =
      (if cfg.curDC_max < |i16sub s.offsetdcl i.dcl| ∨ i.enable = 0 then false else true) := by
    simp [bldc_control]
  have r1 : (bldc_control cfg s i).rightMOE =
      (if cfg.curDC_max < |i16sub s.offsetdcr i.dcr| ∨ i.enable = 0 then false else true) := by
    simp [bldc_control]
  rw [l1, r1]
  refine ⟨?_, ?_, ?_, ?_⟩
  · by_cases h : cfg.curDC_max < |i16sub s.offsetdcl i.dcl| ∨ i.enable = 0 <;> simp [h]
  · by_cases h : cfg.curDC_max < |i16sub s.offsetdcl i.dcl| ∨ i.enable = 0
    · simp only [if_pos h]
      simp only [Bool.false_eq_true, false_iff]
      intro hc
      rcases h with h | h
      · exact absurd h (not_lt.2 hc.1)
      · exact hc.2 h
    · simp only [if_neg h, true_iff]
      push_neg at h
      exact h
  · by_cases h : cfg.curDC_max < |i16sub s.offsetdcr i.dcr| ∨ i.enable = 0 <;> simp [h]
  · by_cases h : cfg.curDC_max < |i16sub s.offsetdcr i.dcr| ∨ i.enable = 0
    · simp only [if_pos h]
      simp only [Bool.false_eq_true, false_iff]
      intro hc
      rcases h with h | h
      · exact absurd h (not_lt.2 hc.1)
      · exact hc.2 h
    · simp only [if_neg h, true_iff]
      push_neg at h
      exact h

/-! ### C3: range of the hall lookup table -/

/-- C3 counterexample: the lookup table entry for all three hall readings 0
(the physically impossible all-released state) is 6, which is not in the
half-open range [0,6) asserted by the claim. -/
theorem c3_counterexample : ¬ (hall2pos false false false < 6) := by decide

/-- C3 (amended): for every one of the 8 combinations of the 3 boolean hall
inputs the lookup table yields a defined sector value in the closed range
[0,6]; the two invalid combinations map to the reserved value 6. -/
theorem c3_sector_range : ∀ u v w : Bool, hall2pos u v w ≤ 6 := by decide

/-! ### C4: step counter and two-slot sector history -/

/-- C4: per motor and per control tick, the step counter increments (mod
2^16, the width of `steps`) exactly when the newly decoded sector differs
from both stored history slots, and the history shifts
(previous := current, current := new) exactly when the new sector differs
from the currently stored one; a bounce back to the previous sector shifts
the history but does not increment the counter. -/
theorem c4_step_counter (cfg : Cfg) (s : State) (i : TickInput) :
    ((bldc_control cfg s i).steps0 =
      if posL i ≠ s.pos00 ∧ posL i ≠ s.pos01 then (s.steps0 + 1) % U16 else s.steps0) ∧
    ((bldc_control cfg s i).pos00 = if posL i ≠ s.pos00 then posL i else s.pos00) ∧
    ((bldc_control cfg s i).pos01 = if posL i ≠ s.pos00 then s.pos00 else s.pos01) ∧
    ((bldc_control cfg s i).steps1 =
      if posR i ≠ s.pos10 ∧ posR i ≠ s.pos11 then (s.steps1 + 1) % U16 else s.steps1) ∧
    ((bldc_control cfg s i).pos10 = if posR i ≠ s.pos10 then posR i else s.pos10) ∧
    ((bldc_control cfg s i).pos11 = if posR i ≠ s.pos10 then s.pos10 else s.pos11) := by
  by_cases h1 : posL i = s.pos00 <;> by_cases h2 : posL i = s.pos01 <;>
    by_cases h3 : posR i = s.pos10 <;> by_cases h4 : posR i = s.pos11 <;>
      simp [bldc_control, h1, h2, h3, h4]

/-! ### C5: PWM clamp and margins -/

/-- Saturation of a centered duty value into the margin window lands in the
window, and the `uint16_t` cast is the identity on it. -/
lemma u16_clamp_bounds (x m p : Int) (h0 : 0 ≤ m) (hmp : m ≤ p - m) (hp : p < 65536) :
    m ≤ (u16ofInt (clampInt x m (p - m)) : Int) ∧
    (u16ofInt (clampInt x m (p - m)) : Int) ≤ p - m := by
  have hlo : m ≤ clampInt x m (p - m) := le_min (le_max_right _ _) hmp
  have hhi : clampInt x m (p - m) ≤ p - m := min_le_right _ _
  have h0v : 0 ≤ clampInt x m (p - m) := le_trans h0 hlo
  have hub : clampInt x m (p - m) < 65536 := lt_of_le_of_lt hhi (by linarith)
  have he : u16ofInt (clampInt x m (p - m)) = (clampInt x m (p - m)).toNat := by
    unfold u16ofInt
    rw [Int.emod_eq_of_lt h0v hub]
  rw [he, Int.toNat_of_nonneg h0v]
  exact ⟨hlo, hhi⟩

/-- The selected PWM margin is nonnegative and at most half the period when
the period is at least 220. -/
lemma pwmMargin_window (cfg : Cfg) (t : Nat) (hres : 220 ≤ cfg.pwm_res) :
    0 ≤ pwmMargin cfg t ∧ pwmMargin cfg t ≤ (cfg.pwm_res : Int) - pwmMargin cfg t := by
  have h : (220 : Int) ≤ (cfg.pwm_res : Int) := by exact_mod_cast hres
  unfold pwmMargin
  split <;> constructor <;> linarith

/-- Every value produced by the duty register computation lies in the margin
window `[m, pwm_res - m]`. -/
lemma dutyReg_bounds (cfg : Cfg) (t : Nat) (x : Int)
    (hres : 220 ≤ cfg.pwm_res) (hres2 : cfg.pwm_res < 65536) :
    pwmMargin cfg t ≤ (dutyReg cfg (pwmMargin cfg t) x : Int) ∧
    (dutyReg cfg (pwmMargin cfg t) x : Int) ≤ (cfg.pwm_res : Int) - pwmMargin cfg t := by
  obtain ⟨h0, hmp⟩ := pwmMargin_window cfg t hres
  have hp : (cfg.pwm_res : Int) < 65536 := by exact_mod_cast hres2
  exact u16_clamp_bounds _ _ _ h0 hmp hp

/-- C5: for each motor and on every control tick, each of the three values
written to the timer compare registers equals the raw duty output plus half
the PWM period, saturated by `CLAMP` into `[margin, period - margin]` where
the margin is 110 under FOC control type and 0 otherwise; consequently (for
a period of at least 220 counts that fits in `uint16_t`, as the shipped 2000
does) every written value lies in `[margin, period - margin]`. -/
theorem c5_pwm_clamp (cfg : Cfg) (s : State) (i : TickInput)
    (hres : 220 ≤ cfg.pwm_res) (hres2 : cfg.pwm_res < 65536) :
    ((bldc_control cfg s i).leftTimU = dutyReg cfg (pwmMargin cfg i.ctrlTypL) i.yL.DC_phaA ∧
     (bldc_control cfg s i).leftTimV = dutyReg cfg (pwmMargin cfg i.ctrlTypL) i.yL.DC_phaB ∧
     (bldc_control cfg s i).leftTimW = dutyReg cfg (pwmMargin cfg i.ctrlTypL) i.yL.DC_phaC ∧
     (bldc_control cfg s i).rightTimU = dutyReg cfg (pwmMargin cfg i.ctrlTypR) i.yR.DC_phaA ∧
     (bldc_control cfg s i).rightTimV = dutyReg cfg (pwmMargin cfg i.ctrlTypR) i.yR.DC_phaB ∧
     (bldc_control cfg s i).rightTimW = dutyReg cfg (pwmMargin cfg i.ctrlTypR) i.yR.DC_phaC) ∧
    ((pwmMargin cfg i.ctrlTypL ≤ ((bldc_control cfg s i).leftTimU : Int) ∧
      ((bldc_control cfg s i).leftTimU : Int) ≤ (cfg.pwm_res : Int) - pwmMargin cfg i.ctrlTypL) ∧
     (pwmMargin cfg i.ctrlTypL ≤ ((bldc_control cfg s i).leftTimV : Int) ∧
      ((bldc_control cfg s i).leftTimV : Int) ≤ (cfg.pwm_res : Int) - pwmMargin cfg i.ctrlTypL) ∧
     (pwmMargin cfg i.ctrlTypL ≤ ((bldc_control cfg s i).leftTimW : Int) ∧
      ((bldc_control cfg s i).leftTimW : Int) ≤ (cfg.pwm_res : Int) - pwmMargin cfg i.ctrlTypL) ∧
     (pwmMargin cfg i.ctrlTypR ≤ ((bldc_control cfg s i).rightTimU : Int) ∧
      ((bldc_control cfg s i).rightTimU : Int) ≤ (cfg.pwm_res : Int) - pwmMargin cfg i.ctrlTypR) ∧
     (pwmMargin cfg i.ctrlTypR ≤ ((bldc_control cfg s i).rightTimV : Int) ∧
      ((bldc_control cfg s i).rightTimV : Int) ≤ (cfg.pwm_res : Int) - pwmMargin cfg i.ctrlTypR) ∧
     (pwmMargin cfg i.ctrlTypR ≤ ((bldc_control cfg s i).rightTimW : Int) ∧
      ((bldc_control cfg s i).rightTimW : Int) ≤ (cfg.pwm_res : Int) - pwmMargin cfg i.ctrlTypR)) := by
  refine ⟨⟨rfl, rfl, rfl, rfl, rfl, rfl⟩, ?_⟩
  exact ⟨dutyReg_bounds cfg i.ctrlTypL i.yL.DC_phaA hres hres2,
    dutyReg_bounds cfg i.ctrlTypL i.yL.DC_phaB hres hres2,
    dutyReg_bounds cfg i.ctrlTypL i.yL.DC_phaC hres hres2,
    dutyReg_bounds cfg i.ctrlTypR i.yR.DC_phaA hres hres2,
    dutyReg_bounds cfg i.ctrlTypR i.yR.DC_phaB hres hres2,
    dutyReg_bounds cfg i.ctrlTypR i.yR.DC_phaC hres hres2⟩

/-- C5 witness: at the concrete configuration (period 2000, FOC control
type) and the concrete tick input, the hypotheses hold and the clamp
characterization and bounds follow from `c5_pwm_clamp`. -/
theorem c5_pwm_clamp_witness :
    220 ≤ cfg0.pwm_res ∧ cfg0.pwm_res < 65536 ∧
    ((bldc_control cfg0 (baseState 0 Handler.control false) i0).leftTimU =
      dutyReg cfg0 (pwmMargin cfg0 i0.ctrlTypL) i0.yL.DC_phaA) ∧
    (pwmMargin cfg0 i0.ctrlTypL ≤
      ((bldc_control cfg0 (baseState 0 Handler.control false) i0).leftTimU : Int)) :=
  ⟨by decide, by decide,
    (c5_pwm_clamp cfg0 (baseState 0 Handler.control false) i0 (by decide) (by decide)).1.1,
    (c5_pwm_clamp cfg0 (baseState 0 Handler.control false) i0 (by decide) (by decide)).2.1.1⟩

/-! ### Projection helpers: fields the buzzer/battery tail never touches -/

@[simp] lemma buzzerBattery_offsetrlA (cfg : Cfg) (s : State) (i : TickInput) :
    (buzzerBattery cfg s i).offsetrlA = s.offsetrlA := rfl

@[simp] lemma buzzerBattery_offsetrlB (cfg : Cfg) (s : State) (i : TickInput) :
    (buzzerBattery cfg s i).offsetrlB = s.offsetrlB := rfl

@[simp] lemma buzzerBattery_offsetrrB (cfg : Cfg) (s : State) (i : TickInput) :
    (buzzerBattery cfg s i).offsetrrB = s.offsetrrB := rfl

@[simp] lemma buzzerBattery_offsetrrC (cfg : Cfg) (s : State) (i : TickInput) :
    (buzzerBattery cfg s i).offsetrrC = s.offsetrrC := rfl

@[simp] lemma buzzerBattery_offsetdcl (cfg : Cfg) (s : State) (i : TickInput) :
    (buzzerBattery cfg s i).offsetdcl = s.offsetdcl := rfl

@[simp] lemma buzzerBattery_offsetdcr (cfg : Cfg) (s : State) (i : TickInput) :
    (buzzerBattery cfg s i).offsetdcr = s.offsetdcr := rfl

@[simp] lemma buzzerBattery_mainCounter (cfg : Cfg) (s : State) (i : TickInput) :
    (buzzerBattery cfg s i).mainCounter = s.mainCounter := rfl

@[simp] lemma buzzerBattery_pos00 (cfg : Cfg) (s : State) (i : TickInput) :
    (buzzerBattery cfg s i).pos00 = s.pos00 := rfl

@[simp] lemma buzzerBattery_pos01 (cfg : Cfg) (s : State) (i : TickInput) :
    (buzzerBattery cfg s i).pos01 = s.pos01 := rfl

@[simp] lemma buzzerBattery_pos10 (cfg : Cfg) (s : State) (i : TickInput) :
    (buzzerBattery cfg s i).pos10 = s.pos10 := rfl

@[simp] lemma buzzerBattery_pos11 (cfg : Cfg) (s : State) (i : TickInput) :
    (buzzerBattery cfg s i).pos11 = s.pos11 := rfl

@[simp] lemma buzzerBattery_steps0 (cfg : Cfg) (s : State) (i : TickInput) :
    (buzzerBattery cfg s i).steps0 = s.steps0 := rfl

@[simp] lemma buzzerBattery_steps1 (cfg : Cfg) (s : State) (i : TickInput) :
    (buzzerBattery cfg s i).steps1 = s.steps1 := rfl

@[simp] lemma buzzerBattery_handler (cfg : Cfg) (s : State) (i : TickInput) :
    (buzzerBattery cfg s i).handler = s.handler := rfl

@[simp] lemma buzzerBattery_overrunFlag (cfg : Cfg) (s : State) (i : TickInput) :
    (buzzerBattery cfg s i).overrunFlag = s.overrunFlag := rfl

@[simp] lemma bldc_control_mainCounter (cfg : Cfg) (s : State) (i : TickInput) :
    (bldc_control cfg s i).mainCounter = s.mainCounter := rfl

/-! ### C7: motion during calibration restarts it from zero -/

/-- C7: if on a calibration tick either freshly decoded sector differs from
its snapshotted baseline, the tick behaves exactly as if calibration had
just been restarted from scratch on the current input (so the resulting
offsets are independent of everything accumulated before the restart);
`bldc_start_calibration` zeroes the counter and all six accumulators and
re-snapshots both baselines from the current hall inputs, and the handler
stays bound to calibration rather than surfacing any failure. -/
theorem c7_motion_restart (cfg : Cfg) (s : State) (i : TickInput)
    (hN : 0 < cfg.calibrationSamples)
    (hm : posL i ≠ s.pos00 ∨ posR i ≠ s.pos10) :
    calibration_func cfg s i = calibration_func cfg (bldc_start_calibration s i) i ∧
    (bldc_start_calibration s i).offsetrlA = 0 ∧
    (bldc_start_calibration s i).offsetrlB = 0 ∧
    (bldc_start_calibration s i).offsetrrB = 0 ∧
    (bldc_start_calibration s i).offsetrrC = 0 ∧
    (bldc_start_calibration s i).offsetdcl = 0 ∧
    (bldc_start_calibration s i).offsetdcr = 0 ∧
    (bldc_start_calibration s i).mainCounter = 0 ∧
    (bldc_start_calibration s i).pos00 = posL i ∧
    (bldc_start_calibration s i).pos01 = posL i ∧
    (bldc_start_calibration s i).pos10 = posR i ∧
    (bldc_start_calibration s i).pos11 = posR i ∧
    (bldc_start_calibration s i).handler = Handler.calibration ∧
    (calibration_func cfg s i).handler = Handler.calibration := by
  have hmain : calibration_func cfg s i = calibration_func cfg (bldc_start_calibration s i) i := by
    by_cases hl : posL i = s.pos00
    · have hr : posR i ≠ s.pos10 := by
        rcases hm with h | h
        · exact absurd hl h
        · exact h
      simp [calibration_func, bldc_start_calibration, hl, hr]
    · simp [calibration_func, bldc_start_calibration, hl]
  have hhandler : (calibration_func cfg (bldc_start_calibration s i) i).handler =
      Handler.calibration := by
    simp [calibration_func, bldc_start_calibration, accumulate, hN]
  exact ⟨hmain, rfl, rfl, rfl, rfl, rfl, rfl, rfl, rfl, rfl, rfl, rfl, rfl,
    hmain ▸ hhandler⟩

/-- C7 witness: with sample target 2, at a concrete calibration state whose
left baseline (sector 0) disagrees with the decoded sector (6), the restart
equations of `c7_motion_restart` hold. -/
theorem c7_motion_restart_witness :
    0 < cfg0.calibrationSamples ∧
    (posL i0 ≠ ({ baseState 5 Handler.calibration false with pos00 := 0 } : State).pos00 ∨
      posR i0 ≠ ({ baseState 5 Handler.calibration false with pos00 := 0 } : State).pos10) ∧
    calibration_func cfg0 { baseState 5 Handler.calibration false with pos00 := 0 } i0 =
      calibration_func cfg0
        (bldc_start_calibration { baseState 5 Handler.calibration false with pos00 := 0 } i0) i0 :=
  ⟨by decide, Or.inl (by decide),
    (c7_motion_restart cfg0 { baseState 5 Handler.calibration false with pos00 := 0 } i0
      (by decide) (Or.inl (by decide))).1⟩

/-! ### C8: behaviour of an overrun-dropped invocation -/

/-- C8 counterexample: an invocation entered with the overrun guard flag set
does mutate state, contrary to the claim: it increments the tick counter
(from 0 to 1 here) before checking the guard. -/
theorem c8_counterexample :
    (irqStep cfg0 (baseState 0 Handler.calibration true) i0).mainCounter ≠
      (baseState 0 Handler.calibration true).mainCounter := by decide

/-- C8 (amended): an invocation entered while the overrun guard flag is set
increments the 64-bit tick counter (mod 2^64) and performs no other state
mutation: offsets, sector history, step counters, compare registers, MOE
bits, buzzer state, battery filter state and the handler binding are all
left unchanged, and the control logic does not run. -/
theorem c8_overrun_no_mutation (cfg : Cfg) (s : State) (i : TickInput)
    (h : s.overrunFlag = true) :
    irqStep cfg s i = { s with mainCounter := (s.mainCounter + 1) % U64 } := by
  unfold irqStep
  simp [h]

/-- C8 witness: the amended overrun behaviour at a concrete flagged state. -/
theorem c8_overrun_no_mutation_witness :
    (baseState 0 Handler.calibration true).overrunFlag = true ∧
    irqStep cfg0 (baseState 0 Handler.calibration true) i0 =
      { baseState 0 Handler.calibration true with
        mainCounter := ((baseState 0 Handler.calibration true).mainCounter + 1) % U64 } :=
  ⟨rfl, c8_overrun_no_mutation cfg0 (baseState 0 Handler.calibration true) i0 rfl⟩

/-! ### C9: tick counter across one invocation -/

/-- Counter component of one calibration tick: reset to zero exactly when a
motion restart fires, untouched otherwise. -/
lemma calibration_func_counter (cfg : Cfg) (s : State) (i : TickInput) :
    (calibration_func cfg s i).mainCounter =
      if posL i ≠ s.pos00 ∨ posR i ≠ s.pos10 then 0 else s.mainCounter := by
  by_cases hl : posL i = s.pos00 <;> by_cases hr : posR i = s.pos10 <;>
    simp [calibration_func, bldc_start_calibration, accumulate, hl, hr,
      apply_ite State.mainCounter]

/-- C9 counterexample: across an invocation that dispatches a calibration
tick observing motion, the tick counter decreases (from 5 to 0 here),
refuting the claim that it never decreases across invocations. -/
theorem c9_counterexample :
    (irqStep cfg0 { baseState 5 Handler.calibration false with pos00 := 0 } i0).mainCounter <
      ({ baseState 5 Handler.calibration false with pos00 := 0 } : State).mainCounter := by
  decide

/-- C9 (amended): the interrupt handler sets the 64-bit tick counter to
`(old + 1) mod 2^64` at entry on every invocation, including the ones the
overrun guard drops; the net effect of the whole invocation on the counter
is that value except when the invocation dispatches a calibration tick that
detects motion, in which case the restart resets the counter to zero.  Hence
the counter never decreases across an invocation, other than on a
calibration restart or on 64-bit wraparound. -/
theorem c9_counter_characterization (cfg : Cfg) (s : State) (i : TickInput) :
    (irqStep cfg s i).mainCounter =
      if s.overrunFlag = false ∧ s.handler = Handler.calibration ∧
          (posL i ≠ s.pos00 ∨ posR i ≠ s.pos10) then 0
      else (s.mainCounter + 1) % U64 := by
  cases hsf : s.overrunFlag
  · cases hh : s.handler <;>
      simp [irqStep, dispatch, hsf, hh, calibration_func_counter]
  · simp [irqStep, hsf]

/-! ### Calibration-phase tick lemmas -/

/-- With the guard clear and the handler bound to calibration, one interrupt
is the counter increment, the calibration tick, and the buzzer/battery tail. -/
lemma irqStep_calib_eq (cfg : Cfg) (s : State) (i : TickInput)
    (hf : s.overrunFlag = false) (hh : s.handler = Handler.calibration) :
    irqStep cfg s i =
      buzzerBattery cfg
        (calibration_func cfg { s with mainCounter := (s.mainCounter + 1) % U64 } i) i := by
  unfold irqStep dispatch
  simp [hf, hh]

/-- A calibration tick with both sectors on their baselines and the counter
strictly below the sample target only accumulates. -/
lemma calibration_func_accum (cfg : Cfg) (s : State) (i : TickInput)
    (hl : posL i = s.pos00) (hr : posR i = s.pos10)
    (hlt : s.mainCounter < cfg.calibrationSamples) :
    calibration_func cfg s i = accumulate s i := by
  simp [calibration_func, hl, hr, hlt]

/-- A calibration tick with both sectors on their baselines and the counter
equal to the sample target accumulates once more, divides every accumulator
by the target, and hands the dispatch over to the run-time control tick. -/
lemma calibration_func_final (cfg : Cfg) (s : State) (i : TickInput)
    (hl : posL i = s.pos00) (hr : posR i = s.pos10)
    (heq : s.mainCounter = cfg.calibrationSamples) :
    calibration_func cfg s i =
      { accumulate s i with
        offsetrlA := (accumulate s i).offsetrlA / cfg.calibrationSamples
        offsetrlB := (accumulate s i).offsetrlB / cfg.calibrationSamples
        offsetrrB := (accumulate s i).offsetrrB / cfg.calibrationSamples
        offsetrrC := (accumulate s i).offsetrrC / cfg.calibrationSamples
        offsetdcl := (accumulate s i).offsetdcl / cfg.calibrationSamples
        offsetdcr := (accumulate s i).offsetdcr / cfg.calibrationSamples
        handler := Handler.control } := by
  simp [calibration_func, hl, hr, heq]

/-- A calibration tick with both sectors on their baselines and the counter
strictly above the sample target mutates nothing. -/
lemma calibration_func_noop (cfg : Cfg) (s : State) (i : TickInput)
    (hl : posL i = s.pos00) (hr : posR i = s.pos10)
    (hgt : cfg.calibrationSamples < s.mainCounter) :
    calibration_func cfg s i = s := by
  simp [calibration_func, hl, hr, Nat.lt_asymm hgt, Nat.ne_of_gt hgt]

/-! ### C6: exact calibration result under constant input -/

/-- Invariant of the accumulating phase: after `k` completed ticks of a
fresh calibration run under the constant input `i`, the counter reads `k`,
every accumulator holds `k` times its channel sample (mod 2^32), the
baselines still match the decode of `i`, and dispatch stays in calibration. -/
def CalibInv (i : TickInput) (k : Nat) (s : State) : Prop :=
  s.mainCounter = k ∧
  s.offsetrlA = k * i.rlA % U32 ∧
  s.offsetrlB = k * i.rlB % U32 ∧
  s.offsetrrB = k * i.rrB % U32 ∧
  s.offsetrrC = k * i.rrC % U32 ∧
  s.offsetdcl = k * i.dcl % U32 ∧
  s.offsetdcr = k * i.dcr % U32 ∧
  s.pos00 = posL i ∧
  s.pos10 = posR i ∧
  s.handler = Handler.calibration ∧
  s.overrunFlag = false

/-- One accumulation step on top of `k` accumulated samples yields `k + 1`
of them, in `uint32_t` arithmetic. -/
lemma accum_mod_step (k v : Nat) : (k * v % U32 + v) % U32 = (k + 1) * v % U32 := by
  rw [Nat.mod_add_mod, Nat.succ_mul]

/-- The accumulating-phase invariant holds for every tick count strictly
below the sample target. -/
lemma calib_run_inv (cfg : Cfg) (s : State) (i : TickInput)
    (hflag : s.overrunFlag = false) (hN64 : cfg.calibrationSamples < U64) :
    ∀ k, k < cfg.calibrationSamples →
      CalibInv i k (runTicks cfg i (bldc_start_calibration s i) k) := by
  intro k
  induction k with
  | zero =>
    intro _
    refine ⟨rfl, ?_, ?_, ?_, ?_, ?_, ?_, rfl, rfl, rfl, hflag⟩ <;>
      simp [runTicks, bldc_start_calibration]
  | succ k ih =>
    intro hk1
    obtain ⟨hc, hA, hB, hC, hD, hE, hF, hp0, hp1, hh, hf⟩ :=
      ih (lt_trans (Nat.lt_succ_self k) hk1)
    have hstep : runTicks cfg i (bldc_start_calibration s i) (k + 1) =
        irqStep cfg (runTicks cfg i (bldc_start_calibration s i) k) i := rfl
    have hcnt : ((runTicks cfg i (bldc_start_calibration s i) k).mainCounter + 1) % U64 =
        k + 1 := by
      rw [hc]
      exact Nat.mod_eq_of_lt (lt_trans hk1 hN64)
    rw [hstep, irqStep_calib_eq cfg _ i hf hh,
      calibration_func_accum cfg _ i (by simpa using hp0.symm) (by simpa using hp1.symm)
        (by simpa [hcnt] using hk1)]
    refine ⟨?_, ?_, ?_, ?_, ?_, ?_, ?_, ?_, ?_, ?_, ?_⟩ <;>
      simp [accumulate, hcnt, hA, hB, hC, hD, hE, hF, hp0, hp1, hh, hf, accum_mod_step,
        Nat.succ_mul]

/-- C6: starting from a fresh calibration (`bldc_start_calibration` zeroes
the tick counter and all six accumulators), with every ADC channel held at a
constant value, no motion (the input is constant, so the decoded sectors
stay on the snapshotted baselines), and no overrun, the run of exactly
`CALIBRATION_SAMPLES` interrupts accumulates one sample per tick, and on the
tick where the counter equals the target divides each accumulator exactly
once by the target, leaving each offset equal to its constant channel value
(the integer division is exact since `sum = N * V`), and switches the
per-tick handler to the run-time control tick.  The side conditions ask that
the target be positive, fit the 64-bit counter, and that no accumulator
overflow `uint32_t`. -/
theorem c6_calibration_exact (cfg : Cfg) (s : State) (i : TickInput)
    (hN : 0 < cfg.calibrationSamples) (hN64 : cfg.calibrationSamples < U64)
    (hflag : s.overrunFlag = false)
    (hbA : cfg.calibrationSamples * i.rlA < U32)
    (hbB : cfg.calibrationSamples * i.rlB < U32)
    (hbC : cfg.calibrationSamples * i.rrB < U32)
    (hbD : cfg.calibrationSamples * i.rrC < U32)
    (hbE : cfg.calibrationSamples * i.dcl < U32)
    (hbF : cfg.calibrationSamples * i.dcr < U32) :
    (runTicks cfg i (bldc_start_calibration s i) cfg.calibrationSamples).offsetrlA = i.rlA ∧
    (runTicks cfg i (bldc_start_calibration s i) cfg.calibrationSamples).offsetrlB = i.rlB ∧
    (runTicks cfg i (bldc_start_calibration s i) cfg.calibrationSamples).offsetrrB = i.rrB ∧
    (runTicks cfg i (bldc_start_calibration s i) cfg.calibrationSamples).offsetrrC = i.rrC ∧
    (runTicks cfg i (bldc_start_calibration s i) cfg.calibrationSamples).offsetdcl = i.dcl ∧
    (runTicks cfg i (bldc_start_calibration s i) cfg.calibrationSamples).offsetdcr = i.dcr ∧
    (runTicks cfg i (bldc_start_calibration s i) cfg.calibrationSamples).handler =
      Handler.control ∧
    (runTicks cfg i (bldc_start_calibration s i) cfg.calibrationSamples).mainCounter =
      cfg.calibrationSamples := by
  obtain ⟨hc, hA, hB, hC, hD, hE, hF, hp0, hp1, hh, hf⟩ :=
    calib_run_inv cfg s i hflag hN64 (cfg.calibrationSamples - 1) (Nat.sub_lt hN one_pos)
  have hNk : cfg.calibrationSamples - 1 + 1 = cfg.calibrationSamples :=
    Nat.succ_pred_eq_of_pos hN
  have hstep : runTicks cfg i (bldc_start_calibration s i) cfg.calibrationSamples =
      irqStep cfg (runTicks cfg i (bldc_start_calibration s i)
        (cfg.calibrationSamples - 1)) i := by
    conv_lhs => rw [← hNk]
    rfl
  have hcnt : ((runTicks cfg i (bldc_start_calibration s i)
      (cfg.calibrationSamples - 1)).mainCounter + 1) % U64 = cfg.calibrationSamples := by
    rw [hc, hNk]
    exact Nat.mod_eq_of_lt hN64
  have hdiv : ∀ v A, A = (cfg.calibrationSamples - 1) * v % U32 →
      cfg.calibrationSamples * v < U32 → (A + v) % U32 / cfg.calibrationSamples = v := by
    intro v A hAe hb
    subst hAe
    rw [accum_mod_step, hNk, Nat.mod_eq_of_lt hb, Nat.mul_div_cancel_left v hN]
  rw [hstep, irqStep_calib_eq cfg _ i hf hh,
    calibration_func_final cfg _ i (by simpa using hp0.symm) (by simpa using hp1.symm)
      (by simpa using hcnt)]
  refine ⟨?_, ?_, ?_, ?_, ?_, ?_, by simp, by simp [accumulate, hcnt]⟩ <;>
    · simp only [buzzerBattery_offsetrlA, buzzerBattery_offsetrlB, buzzerBattery_offsetrrB,
        buzzerBattery_offsetrrC, buzzerBattery_offsetdcl, buzzerBattery_offsetdcr]
      simp [accumulate]
      first
        | exact hdiv i.rlA _ hA hbA
        | exact hdiv i.rlB _ hB hbB
        | exact hdiv i.rrB _ hC hbC
        | exact hdiv i.rrC _ hD hbD
        | exact hdiv i.dcl _ hE hbE
        | exact hdiv i.dcr _ hF hbF

/-- A concrete tick input with nonzero constant ADC samples. -/
def i6 : TickInput :=
  { i0 with rlA := 7, rlB := 8, rrB := 9, rrC := 10, dcl := 11, dcr := 12 }

/-- C6 witness: with sample target 2 and constant samples 7..12, two ticks
after a fresh start every offset equals its channel value and the handler
has switched to the control tick. -/
theorem c6_calibration_exact_witness :
    0 < cfg0.calibrationSamples ∧ cfg0.calibrationSamples * i6.dcl < U32 ∧
    (runTicks cfg0 i6 (bldc_start_calibration (baseState 0 Handler.nullFunc false) i6)
      cfg0.calibrationSamples).offsetdcl = i6.dcl ∧
    (runTicks cfg0 i6 (bldc_start_calibration (baseState 0 Handler.nullFunc false) i6)
      cfg0.calibrationSamples).handler = Handler.control :=
  ⟨by decide, by decide,
    (c6_calibration_exact cfg0 (baseState 0 Handler.nullFunc false) i6 (by decide) (by decide)
      (by decide) (by decide) (by decide) (by decide) (by decide) (by decide)
      (by decide)).2.2.2.2.1,
    (c6_calibration_exact cfg0 (baseState 0 Handler.nullFunc false) i6 (by decide) (by decide)
      (by decide) (by decide) (by decide) (by decide) (by decide) (by decide)
      (by decide)).2.2.2.2.2.2.1⟩

/-! ### C10: dropped final calibration tick leaves the loop stuck -/

/-- Invariant of the stuck post-drop run: after `k` further ticks the counter
reads `target + k` and nothing in the calibration state has moved. -/
def StuckInv (s : State) (N k : Nat) (t : State) : Prop :=
  t.mainCounter = N + k ∧
  t.offsetrlA = s.offsetrlA ∧
  t.offsetrlB = s.offsetrlB ∧
  t.offsetrrB = s.offsetrrB ∧
  t.offsetrrC = s.offsetrrC ∧
  t.offsetdcl = s.offsetdcl ∧
  t.offsetdcr = s.offsetdcr ∧
  t.pos00 = s.pos00 ∧
  t.pos10 = s.pos10 ∧
  t.steps0 = s.steps0 ∧
  t.steps1 = s.steps1 ∧
  t.handler = Handler.calibration ∧
  t.overrunFlag = false

/-- The stuck invariant persists for every tick count that keeps the 64-bit
counter from wrapping. -/
lemma stuck_run_inv (cfg : Cfg) (s : State) (i : TickInput)
    (hh : s.handler = Handler.calibration) (hf : s.overrunFlag = false)
    (hc : s.mainCounter = cfg.calibrationSamples)
    (hl : posL i = s.pos00) (hr : posR i = s.pos10) :
    ∀ k, cfg.calibrationSamples + k < U64 →
      StuckInv s cfg.calibrationSamples k (runTicks cfg i s k) := by
  intro k
  induction k with
  | zero =>
    intro _
    exact ⟨by simp [runTicks, hc], rfl, rfl, rfl, rfl, rfl, rfl, rfl, rfl, rfl, rfl, hh, hf⟩
  | succ k ih =>
    intro hk1
    obtain ⟨jc, jA, jB, jC, jD, jE, jF, jp0, jp1, js0, js1, jh, jf⟩ :=
      ih (lt_trans (by omega) hk1)
    have hstep : runTicks cfg i s (k + 1) = irqStep cfg (runTicks cfg i s k) i := rfl
    have hcnt : ((runTicks cfg i s k).mainCounter + 1) % U64 =
        cfg.calibrationSamples + (k + 1) := by
      rw [jc]
      have : cfg.calibrationSamples + k + 1 = cfg.calibrationSamples + (k + 1) := by omega
      rw [this]
      exact Nat.mod_eq_of_lt hk1
    rw [hstep, irqStep_calib_eq cfg _ i jf jh,
      calibration_func_noop cfg _ i (by simpa [jp0] using hl) (by simpa [jp1] using hr)
        (by simp only [hcnt]; omega)]
    exact ⟨by simp [hcnt], by simp [jA], by simp [jB], by simp [jC], by simp [jD],
      by simp [jE], by simp [jF], by simp [jp0], by simp [jp1], by simp [js0],
      by simp [js1], by simp [jh], by simp [jf]⟩

/-- C10 counterexample fixture: calibration state with counter value `c` and
buzzer timer `bt`, baselines on the decoded sector of `i0`. -/
def sXfam (c bt : Nat) : State :=
  { baseState c Handler.calibration false with buzzerTimer := bt }

/-- Setting the counter on the fixture stays in the family. -/
lemma sXfam_set_counter (c bt x : Nat) :
    ({ sXfam c bt with mainCounter := x } : State) = sXfam x bt := rfl

/-- On the fixture (buzzer off, zero battery state, identity filter), the
buzzer/battery tail only advances the 32-bit buzzer timer. -/
lemma buzzerBattery_sXfam (c bt : Nat) :
    buzzerBattery cfg0 (sXfam c bt) i0 = sXfam c ((bt + 1) % U32) := by
  simp [buzzerBattery, sXfam, baseState, cfg0, i0, toInt16i, Int.fdiv]

/-- On the fixture the accumulation pass is the identity, all ADC samples of
`i0` being zero. -/
lemma accumulate_sXfam (c bt : Nat) : accumulate (sXfam c bt) i0 = sXfam c bt := by
  simp [accumulate, sXfam, baseState, i0]

/-- Closed form of the post-drop run on the concrete fixture: starting with
the counter at the sample target 2, after `k` further ticks the counter
reads `(2 + k) mod 2^64` and the buzzer timer `k mod 2^32`, for any `k` up
to the wraparound point. -/
lemma c10_trace : ∀ k, k ≤ U64 - 2 →
    runTicks cfg0 i0 (sXfam 2 0) k = sXfam ((2 + k) % U64) (k % U32) := by
  intro k
  induction k with
  | zero =>
    intro _
    have h1 : (2 + 0) % U64 = 2 := by decide
    have h2 : 0 % U32 = 0 := by decide
    rw [h1, h2]
    rfl
  | succ k ih =>
    intro hk1
    have hk : k ≤ U64 - 2 := le_trans (Nat.le_succ k) hk1
    have hstep : runTicks cfg0 i0 (sXfam 2 0) (k + 1) =
        irqStep cfg0 (runTicks cfg0 i0 (sXfam 2 0) k) i0 := rfl
    rw [hstep, ih hk, irqStep_calib_eq cfg0 _ i0 rfl rfl]
    have hcm : (((sXfam ((2 + k) % U64) (k % U32)).mainCounter + 1) % U64) =
        (2 + (k + 1)) % U64 := by
      show ((2 + k) % U64 + 1) % U64 = (2 + (k + 1)) % U64
      simp [U64]
      omega
    rw [show ({ sXfam ((2 + k) % U64) (k % U32) with
        mainCounter := ((sXfam ((2 + k) % U64) (k % U32)).mainCounter + 1) % U64 } : State) =
        sXfam (((sXfam ((2 + k) % U64) (k % U32)).mainCounter + 1) % U64) (k % U32) from rfl,
      hcm]
    rcases Nat.lt_or_ge (2 + (k + 1)) U64 with hlt | hge
    · have hv : (2 + (k + 1)) % U64 = 2 + (k + 1) := Nat.mod_eq_of_lt hlt
      rw [calibration_func_noop cfg0 _ i0 rfl rfl
          (by show cfg0.calibrationSamples < (2 + (k + 1)) % U64
              rw [hv]
              show 2 < 2 + (k + 1)
              omega),
        buzzerBattery_sXfam]
      have hbt : (k % U32 + 1) % U32 = (k + 1) % U32 := Nat.mod_add_mod k U32 1
      rw [hbt]
    · have hveq : 2 + (k + 1) = U64 := by
        have : k + 1 ≤ U64 - 2 := hk1
        omega
      have hv : (2 + (k + 1)) % U64 = 0 := by
        rw [hveq]
        simp
      rw [hv,
        calibration_func_accum cfg0 _ i0 rfl rfl
          (by show (0 : Nat) < 2; decide),
        accumulate_sXfam, buzzerBattery_sXfam]
      have hbt : (k % U32 + 1) % U32 = (k + 1) % U32 := Nat.mod_add_mod k U32 1
      rw [hbt]

/-- C10 counterexample: in faithful 64-bit arithmetic the claim that every
subsequent tick keeps the counter strictly above the target is false: after
`2^64 - 2` further dropped-free ticks from the post-drop state (counter at
target 2) the counter has wrapped to 0, which does not exceed the target. -/
theorem c10_counterexample :
    ¬ (cfg0.calibrationSamples <
      (runTicks cfg0 i0 (sXfam 2 0) (U64 - 2)).mainCounter) := by
  rw [c10_trace (U64 - 2) (le_refl _)]
  show ¬ (cfg0.calibrationSamples < (2 + (U64 - 2)) % U64)
  have h : (2 + (U64 - 2)) % U64 = 0 := by
    simp [U64]
  rw [h]
  decide

/-- C10 (amended): if the invocation on which the counter reaches the sample
target is dropped by the overrun guard, then on every subsequent tick before
the 64-bit counter wraps around (that is, for `k` further ticks with
`target + k < 2^64`, under motionless input and no further overrun) the
counter reads `target + k`, strictly above the target, and the calibration
tick performs no accumulation, no division, and no handler switch: the
offsets, baselines and step counters are untouched and dispatch stays in
calibration, so the system stays in the calibration phase unless a sector
change restarts it (or, after astronomically many ticks, the counter
wraps). -/
theorem c10_stuck_calibration (cfg : Cfg) (s : State) (i : TickInput) (k : Nat)
    (hh : s.handler = Handler.calibration) (hf : s.overrunFlag = false)
    (hc : s.mainCounter = cfg.calibrationSamples)
    (hl : posL i = s.pos00) (hr : posR i = s.pos10)
    (hk : 0 < k) (hw : cfg.calibrationSamples + k < U64) :
    (runTicks cfg i s k).mainCounter = cfg.calibrationSamples + k ∧
    cfg.calibrationSamples < (runTicks cfg i s k).mainCounter ∧
    (runTicks cfg i s k).offsetrlA = s.offsetrlA ∧
    (runTicks cfg i s k).offsetrlB = s.offsetrlB ∧
    (runTicks cfg i s k).offsetrrB = s.offsetrrB ∧
    (runTicks cfg i s k).offsetrrC = s.offsetrrC ∧
    (runTicks cfg i s k).offsetdcl = s.offsetdcl ∧
    (runTicks cfg i s k).offsetdcr = s.offsetdcr ∧
    (runTicks cfg i s k).pos00 = s.pos00 ∧
    (runTicks cfg i s k).pos10 = s.pos10 ∧
    (runTicks cfg i s k).steps0 = s.steps0 ∧
    (runTicks cfg i s k).steps1 = s.steps1 ∧
    (runTicks cfg i s k).handler = Handler.calibration := by
  obtain ⟨jc, jA, jB, jC, jD, jE, jF, jp0, jp1, js0, js1, jh, _⟩ :=
    stuck_run_inv cfg s i hh hf hc hl hr k hw
  exact ⟨jc, by rw [jc]; omega, jA, jB, jC, jD, jE, jF, jp0, jp1, js0, js1, jh⟩

/-- C10 witness: at the concrete post-drop state (counter at target 2),
three further ticks leave offsets and handler untouched with the counter at
5, strictly above the target. -/
theorem c10_stuck_calibration_witness :
    (baseState 2 Handler.calibration false).handler = Handler.calibration ∧
    (runTicks cfg0 i0 (baseState 2 Handler.calibration false) 3).mainCounter =
      cfg0.calibrationSamples + 3 ∧
    (runTicks cfg0 i0 (baseState 2 Handler.calibration false) 3).handler =
      Handler.calibration :=
  ⟨rfl,
    (c10_stuck_calibration cfg0 (baseState 2 Handler.calibration false) i0 3 rfl rfl (by decide)
      (by decide) (by decide) (by decide) (by decide)).1,
    (c10_stuck_calibration cfg0 (baseState 2 Handler.calibration false) i0 3 rfl rfl (by decide)
      (by decide) (by decide) (by decide)
      (by decide)).2.2.2.2.2.2.2.2.2.2.2.2⟩

end Bldc
